/-
Verification of the random-sunrise batch client (src/index.ts and the
bundled sunriseClient module) against its natural-language specification.

The TypeScript source is shallowly embedded:
  * `SunriseResult`, `ApiStatus`, `SunriseResponse` mirror the interfaces
    declared at the bottom of the source file.
  * The retry loop in `sunriseClient.get` (the `while(true)` loop over
    `httpGetJson`) becomes `getAux` / `get`, parameterised by the sequence
    of API responses the mocked transport returns for attempt 0, 1, 2, …
    The embedding additionally records how many fetch attempts were made
    and how many `sleep(10)` delays were awaited, which the source makes
    observable through time and through the mocked transport.
  * `findEarliestSunrise` becomes a fold over a list, mirroring JavaScript
    `Array.prototype.reduce` with no initial value (which throws on an
    empty array, embedded as `none`).
  * `Promise.all` over the per-coordinate tasks becomes `promiseAll` over
    task outcomes carrying an abstract completion time; it rejects with
    the earliest-raised error and otherwise resolves in input order.
  * The module-level mutable `baseUrl` and `URLSearchParams.set` become an
    association list of query parameters and the state-transition function
    `getStep`; `Number.prototype.toFixed(7)` becomes `toFixed7` over ℚ.
-/
import Mathlib

namespace RandomSunrise

/-- The ten-field parsed API payload, `SunriseResult` in the source:
every field an ISO-8601 timestamp string except `day_length` (seconds). -/
structure SunriseResult where
  sunrise : String
  sunset : String
  solar_noon : String
  day_length : Int
  civil_twilight_begin : String
  civil_twilight_end : String
  nautical_twilight_begin : String
  nautical_twilight_end : String
  astronomical_twilight_begin : String
  astronomical_twilight_end : String
  deriving DecidableEq, Repr

/-- The `status` field of the API response, a four-value enumeration in the
source. -/
inductive ApiStatus where
  | OK
  | INVALID_REQUEST
  | INVALID_DATE
  | UNKNOWN_ERROR
  deriving DecidableEq, Repr

/-- Render a status the way string concatenation in the `throw` would. -/
def ApiStatus.toString : ApiStatus → String
  | .OK => "OK"
  | .INVALID_REQUEST => "INVALID_REQUEST"
  | .INVALID_DATE => "INVALID_DATE"
  | .UNKNOWN_ERROR => "UNKNOWN_ERROR"

/-- The decoded API response body, `SunriseResponse` in the source. -/
structure SunriseResponse where
  results : SunriseResult
  status : ApiStatus
  deriving DecidableEq, Repr

/-- How one call of `sunriseClient.get` can end: `return resp.results`, or
`throw new Error("Sunrise API status: " + resp.status + "  Day length: " +
resp.results.day_length)` — the thrown error carries the status and the
observed day length. -/
inductive GetOutcome where
  | success (record : SunriseResult)
  | apiError (status : ApiStatus) (day_length : Int)
  deriving DecidableEq, Repr

/-- The message of the thrown error, from the source's string concatenation. -/
def GetOutcome.errorMessage : GetOutcome → Option String
  | .success _ => none
  | .apiError s d =>
      some ("Sunrise API status: " ++ s.toString ++ "  Day length: " ++ toString d)

/-- The spec's taxonomy calls the never-retried statuses fatal:
`INVALID_REQUEST` or `INVALID_DATE`. -/
def ApiStatus.isFatal : ApiStatus → Bool
  | .INVALID_REQUEST => true
  | .INVALID_DATE => true
  | .OK => false
  | .UNKNOWN_ERROR => false

/-- A failure the spec names `FatalApiError`: the thrown error carries a
status that is never retried. -/
def GetOutcome.isFatalApiError : GetOutcome → Bool
  | .apiError s _ => s.isFatal
  | .success _ => false

/-- A failure the spec names `ExhaustedRetriesError`: the thrown error
carries a retryable status (`OK` or `UNKNOWN_ERROR`), which the loop only
throws once the five-retry budget is spent. -/
def GetOutcome.isExhaustedRetriesError : GetOutcome → Bool
  | .apiError s _ => !s.isFatal
  | .success _ => false

/-- Observable trace of one `sunriseClient.get` call: its outcome, the
number of `httpGetJson` fetch attempts, and the number of `sleep(10)`
delays awaited. -/
structure GetResult where
  outcome : GetOutcome
  attempts : Nat
  delays : Nat
  deriving DecidableEq, Repr

/-- The `while(true)` retry loop of `sunriseClient.get`, at loop-entry state
`retries`.  `responses i` is the response the transport returns for the
fetch attempt made when `retries = i` (the loop increments `retries` exactly
once per iteration, so the attempt index equals the current `retries`).

Source:
```
while(true){
  var resp = await httpGetJson<SunriseResponse>(apiUrl);
  if(resp.status === "OK" && resp.results.day_length != 0){
    return resp.results;
  } else {
    if(retries < 5 && (resp.status === "OK" || resp.status === "UNKNOWN_ERROR")) {
      retries++;
      await sleep(10);
      continue;
    } else {
      throw new Error("Sunrise API status: " + resp.status + "  Day length: " + resp.results.day_length);
    }
  }
}
```
-/
def getAux (responses : Nat → SunriseResponse) (retries : Nat) : GetResult :=
  if (responses retries).status = ApiStatus.OK ∧
      (responses retries).results.day_length ≠ 0 then
    { outcome := .success (responses retries).results, attempts := 1, delays := 0 }
  else
    if _h : retries < 5 ∧ ((responses retries).status = ApiStatus.OK ∨
        (responses retries).status = ApiStatus.UNKNOWN_ERROR) then
      { outcome := (getAux responses (retries + 1)).outcome,
        attempts := (getAux responses (retries + 1)).attempts + 1,
        delays := (getAux responses (retries + 1)).delays + 1 }
    else
      { outcome := .apiError (responses retries).status (responses retries).results.day_length,
        attempts := 1, delays := 0 }
termination_by 5 - retries
decreasing_by omega

/-- `sunriseClient.get`: run the retry loop from `retries = 0`. -/
def get (responses : Nat → SunriseResponse) : GetResult :=
  getAux responses 0

/-- Total time spent in delays: each `sleep(10)` waits 10 time units. -/
def GetResult.totalDelay (r : GetResult) : Nat :=
  10 * r.delays

/-- A concrete bad record with zero day length, for witnesses. -/
def zeroDayRecord : SunriseResult :=
  { sunrise := "2024-01-01T06:00:00+00:00", sunset := "2024-01-01T18:00:00+00:00"
    solar_noon := "2024-01-01T12:00:00+00:00", day_length := 0
    civil_twilight_begin := "a", civil_twilight_end := "b"
    nautical_twilight_begin := "c", nautical_twilight_end := "d"
    astronomical_twilight_begin := "e", astronomical_twilight_end := "f" }

/-- A concrete good record with non-zero day length, for witnesses. -/
def goodRecord : SunriseResult :=
  { zeroDayRecord with day_length := 43200 }

/-- The `reduce` callback of `findEarliestSunrise`:
`(a,b) => a.sunrise < b.sunrise ? a : b` (JavaScript `<` on strings is
lexicographic comparison, as is Lean's `<` on `String`). -/
def earlierSunrise (a b : SunriseResult) : SunriseResult :=
  if a.sunrise < b.sunrise then a else b

/-- `findEarliestSunrise(sunrises)`:
`sunrises.reduce((a,b) => a.sunrise < b.sunrise ? a : b)`.
`Array.prototype.reduce` with no initial value starts from the first element
and folds left over the rest; on an empty array it throws a `TypeError`
(the failure the spec names `EmptyInputError`), embedded as `none`. -/
def findEarliestSunrise : List SunriseResult → Option SunriseResult
  | [] => none
  | a :: rest => some (rest.foldl earlierSunrise a)

/-- A record used to exhibit the tie-break behaviour; `tieB` shares its
`sunrise` but differs in `sunset`. -/
def tieA : SunriseResult :=
  { zeroDayRecord with sunrise := "2024-01-01T06:00:00+00:00", sunset := "2024-01-01T18:00:00+00:00" }

/-- Same `sunrise` as `tieA`, different `sunset`. -/
def tieB : SunriseResult :=
  { zeroDayRecord with sunrise := "2024-01-01T06:00:00+00:00", sunset := "2024-01-01T19:00:00+00:00" }

/-- A latitude/longitude pair, the `LatLon` interface.  JavaScript numbers
are modelled as rationals (the claims under verification concern decimal
serialization and equality, not binary rounding). -/
structure LatLon where
  lat : ℚ
  lon : ℚ
  deriving DecidableEq

/-- What the error thrown by `sunriseClient.get` carries: the API status
and the observed day length (both appear in the error message). -/
structure ApiError where
  status : ApiStatus
  day_length : Int
  deriving DecidableEq, Repr

/-- One settled per-coordinate promise handed to `Promise.all`: an abstract
settle time (used only to order settlements; ties cannot arise in the
single-threaded event loop) and its result. -/
structure TaskOutcome where
  time : Nat
  result : Except ApiError SunriseResult

/-- Whether a settled promise was rejected. -/
def isRejected : Except ApiError SunriseResult → Bool
  | .error _ => true
  | .ok _ => false

/-- The rejections among the tasks, paired with their settle times. -/
def rejections (tasks : List TaskOutcome) : List (Nat × ApiError) :=
  tasks.filterMap fun t =>
    match t.result with
    | .error e => some (t.time, e)
    | .ok _ => none

/-- The earliest-settled rejection, if any: `Promise.all` rejects with the
first error raised (on equal times the earlier-listed task, matching the
event loop's deterministic dispatch). -/
def firstRejection (tasks : List TaskOutcome) : Option ApiError :=
  match rejections tasks with
  | [] => none
  | p :: rest => some ((rest.foldl (fun a b => if b.1 < a.1 then b else a) p).2)

/-- `Promise.all(locations.map(loc => sunriseClient.get(loc)))`: rejects
with the first-raised error if any task rejects; otherwise resolves with
all fulfilled values in input order. -/
def promiseAll (tasks : List TaskOutcome) : Except ApiError (List SunriseResult) :=
  match firstRejection tasks with
  | some e => .error e
  | none => .ok (tasks.filterMap fun t => t.result.toOption)

/-- What the program writes to standard output: the `.then` branch logs the
earliest record and its day length; on any rejection the `.catch` branch
logs the error to standard error and nothing reaches standard output (a
`TypeError` from `findEarliestSunrise` inside `.then` also rejects into the
`.catch`). -/
def mainOutput (tasks : List TaskOutcome) : Option (SunriseResult × Int) :=
  match promiseAll tasks with
  | .error _ => none
  | .ok sunrises =>
      match findEarliestSunrise sunrises with
      | none => none
      | some earliest => some (earliest, earliest.day_length)

/-- The query parameters of a URL in order, a `URLSearchParams`. -/
abbrev UrlParams := List (String × String)

/-- Removal of every pair named `k` (the tail clean-up `URLSearchParams.set`
performs). -/
def removeParam : UrlParams → String → UrlParams
  | [], _ => []
  | (k', v') :: rest, k =>
      if k' = k then removeParam rest k else (k', v') :: removeParam rest k

/-- `URLSearchParams.set(k, v)`: if pairs named `k` exist, the first one's
value becomes `v` and the remaining ones are removed; otherwise `(k, v)` is
appended at the end. -/
def setParam : UrlParams → String → String → UrlParams
  | [], k, v => [(k, v)]
  | (k', v') :: rest, k, v =>
      if k' = k then (k, v) :: removeParam rest k
      else (k', v') :: setParam rest k v

/-- `URLSearchParams.get(k)`: the value of the first pair named `k`. -/
def getParam : UrlParams → String → Option String
  | [], _ => none
  | (k', v) :: rest, k => if k' = k then some v else getParam rest k

/-- The query parameters of the module-level
`baseUrl = new URL("https://api.sunrise-sunset.org/json")` as created:
the URL has no query string. -/
def baseUrlParams : UrlParams := []

/-- The seven fraction digits of `n`, most significant first (used by the
fixed-point rendering of `toFixed(7)`). -/
def fracDigits7 (n : Nat) : String :=
  ⟨(List.range 7).map fun i => Nat.digitChar (n / 10 ^ (6 - i) % 10)⟩

/-- `Number.prototype.toFixed(7)` over the rational model: ECMAScript picks
the integer `n` with `n / 10^7` closest to the magnitude (ties to the larger
`n`, i.e. half-up), renders `n` with a decimal point before the last seven
digits, and prefixes `-` for negative inputs. -/
def toFixed7 (q : ℚ) : String :=
  (if q < 0 then "-" else "") ++
    (Nat.repr ((⌊|q| * 10 ^ 7 + 1 / 2⌋).toNat / 10 ^ 7) ++ "." ++
      fracDigits7 ((⌊|q| * 10 ^ 7 + 1 / 2⌋).toNat % 10 ^ 7))

/-- The effect of one `sunriseClient.get(location)` call on the query
parameters of the shared `baseUrl` object: `let apiUrl = baseUrl` aliases
(does not copy) the module-level URL, and the three `searchParams.set`
calls mutate it in place:
```
apiUrl.searchParams.set('lat', location.lat.toFixed(7));
apiUrl.searchParams.set('lng', location.lon.toFixed(7));
apiUrl.searchParams.set('formatted', '0');
```
-/
def getStep (params : UrlParams) (location : LatLon) : UrlParams :=
  setParam
    (setParam (setParam params "lat" (toFixed7 location.lat)) "lng" (toFixed7 location.lon))
    "formatted" "0"

/-- The serialized query string of the URL: `k=v` pairs joined by `&`. -/
def serializeQuery (params : UrlParams) : String :=
  String.intercalate "&" (params.map fun p => p.1 ++ "=" ++ p.2)

/-- The number of characters after the last `.` of `s`. -/
def fracLen (s : String) : Nat :=
  (s.data.reverse.takeWhile fun c => c != '.').length

/-- The coordinate of the spec's round-trip example. -/
def exampleLoc : LatLon := { lat := 45.1234567, lon := -93.7654321 }

/-- Whatever the responses, the loop makes at most `n + 1` attempts when
entered with at most `n` retries of budget left. -/
theorem getAux_attempts_le (responses : Nat → SunriseResponse) :
    ∀ (n r : Nat), 5 - r ≤ n → (getAux responses r).attempts ≤ n + 1 := by
  intro n
  induction n with
  | zero =>
    intro r hr
    rw [getAux]
    split
    · exact le_refl 1
    · rw [dif_neg (by rintro ⟨h5, -⟩; omega)]
  | succ n ih =>
    intro r hr
    rw [getAux]
    split
    · show 1 ≤ n + 1 + 1
      omega
    · split
      · show (getAux responses (r + 1)).attempts + 1 ≤ n + 1 + 1
        have := ih (r + 1) (by omega)
        omega
      · show 1 ≤ n + 1 + 1
        omega

/-- If every response up to index 5 has a retryable-bad shape (`UNKNOWN_ERROR`,
or `OK` with zero day length), then from state `retries = r` with `r + n = 5`
the loop makes `n + 1` further attempts and `n` further delays, finally
throwing the status and day length of response 5. -/
theorem getAux_all_bad (responses : Nat → SunriseResponse)
    (h : ∀ i, i ≤ 5 → (responses i).status = ApiStatus.UNKNOWN_ERROR ∨
        ((responses i).status = ApiStatus.OK ∧ (responses i).results.day_length = 0)) :
    ∀ (n r : Nat), r + n = 5 →
      getAux responses r =
        { outcome := .apiError (responses 5).status (responses 5).results.day_length,
          attempts := n + 1, delays := n } := by
  intro n
  induction n with
  | zero =>
    intro r hr
    have hr5 : r = 5 := by omega
    subst hr5
    rw [getAux]
    rcases h 5 le_rfl with hu | ⟨hok, hdl⟩
    · rw [if_neg (by rintro ⟨hs, -⟩; rw [hu] at hs; exact ApiStatus.noConfusion hs),
        dif_neg (by rintro ⟨h5, -⟩; omega)]
    · rw [if_neg (by rintro ⟨-, hne⟩; exact hne hdl),
        dif_neg (by rintro ⟨h5, -⟩; omega)]
  | succ n ih =>
    intro r hr
    rw [getAux]
    rcases h r (by omega) with hu | ⟨hok, hdl⟩
    · rw [if_neg (by rintro ⟨hs, -⟩; rw [hu] at hs; exact ApiStatus.noConfusion hs),
        dif_pos ⟨by omega, Or.inr hu⟩, ih (r + 1) (by omega)]
    · rw [if_neg (by rintro ⟨-, hne⟩; exact hne hdl),
        dif_pos ⟨by omega, Or.inl hok⟩, ih (r + 1) (by omega)]

/-- C1: when the API returns `OK` with `day_length == 0` or `UNKNOWN_ERROR`
on every attempt, `sunriseClient.get` performs exactly 6 fetch attempts
(1 initial + 5 retries), never a 7th, and fails with the spec's
`ExhaustedRetriesError`; moreover the retry loop makes at most 6 attempts
for every possible response sequence. -/
theorem get_exhausts_after_six_attempts (responses : Nat → SunriseResponse)
    (h : ∀ i, (responses i).status = ApiStatus.UNKNOWN_ERROR ∨
        ((responses i).status = ApiStatus.OK ∧ (responses i).results.day_length = 0)) :
    (get responses).attempts = 6 ∧
    (get responses).outcome.isExhaustedRetriesError = true ∧
    (get responses).delays = 5 ∧
    (∀ rs : Nat → SunriseResponse, (get rs).attempts ≤ 6) := by
  have hall : get responses =
      { outcome := .apiError (responses 5).status (responses 5).results.day_length,
        attempts := 6, delays := 5 } :=
    getAux_all_bad responses (fun i _ => h i) 5 0 rfl
  refine ⟨by rw [hall], ?_, by rw [hall], ?_⟩
  · rw [hall]
    rcases h 5 with hu | ⟨hok, -⟩
    · simp [GetOutcome.isExhaustedRetriesError, hu, ApiStatus.isFatal]
    · simp [GetOutcome.isExhaustedRetriesError, hok, ApiStatus.isFatal]
  · intro rs
    exact getAux_attempts_le rs 5 0 (by omega)

/-- C1 witness: a mock that always answers `OK` with zero day length. -/
theorem get_exhausts_after_six_attempts_witness :
    (get (fun _ => ⟨zeroDayRecord, ApiStatus.OK⟩)).attempts = 6 ∧
    (get (fun _ => ⟨zeroDayRecord, ApiStatus.OK⟩)).outcome.isExhaustedRetriesError = true ∧
    (get (fun _ => ⟨zeroDayRecord, ApiStatus.OK⟩)).delays = 5 ∧
    (∀ rs : Nat → SunriseResponse, (get rs).attempts ≤ 6) :=
  get_exhausts_after_six_attempts _ (fun _ => Or.inr ⟨rfl, rfl⟩)

/-- C2: a first response with status `INVALID_REQUEST` or `INVALID_DATE`
fails `sunriseClient.get` immediately with the spec's `FatalApiError`:
one fetch attempt, zero retries, zero delay, and the thrown error carries
the API status and the observed day length. -/
theorem get_fatal_status_fails_immediately (responses : Nat → SunriseResponse)
    (h : (responses 0).status = ApiStatus.INVALID_REQUEST ∨
        (responses 0).status = ApiStatus.INVALID_DATE) :
    get responses =
      { outcome := .apiError (responses 0).status (responses 0).results.day_length,
        attempts := 1, delays := 0 } ∧
    (get responses).outcome.isFatalApiError = true ∧
    (get responses).totalDelay = 0 := by
  have hne : ¬((responses 0).status = ApiStatus.OK ∧
      (responses 0).results.day_length ≠ 0) := by
    rintro ⟨hs, -⟩
    rcases h with h | h <;> (rw [h] at hs; exact ApiStatus.noConfusion hs)
  have hne2 : ¬((0 : Nat) < 5 ∧ ((responses 0).status = ApiStatus.OK ∨
      (responses 0).status = ApiStatus.UNKNOWN_ERROR)) := by
    rintro ⟨-, hs | hs⟩ <;> rcases h with h | h <;> (rw [h] at hs; exact ApiStatus.noConfusion hs)
  have heq : get responses =
      { outcome := .apiError (responses 0).status (responses 0).results.day_length,
        attempts := 1, delays := 0 } := by
    rw [get, getAux, if_neg hne, dif_neg hne2]
  refine ⟨heq, ?_, by rw [heq]; rfl⟩
  rw [heq]
  rcases h with h | h <;> simp [GetOutcome.isFatalApiError, h, ApiStatus.isFatal]

/-- C2 witness: a mock that immediately answers `INVALID_REQUEST`. -/
theorem get_fatal_status_fails_immediately_witness :
    get (fun _ => ⟨zeroDayRecord, ApiStatus.INVALID_REQUEST⟩) =
      { outcome := .apiError ApiStatus.INVALID_REQUEST 0, attempts := 1, delays := 0 } ∧
    (get (fun _ => ⟨zeroDayRecord, ApiStatus.INVALID_REQUEST⟩)).outcome.isFatalApiError = true ∧
    (get (fun _ => ⟨zeroDayRecord, ApiStatus.INVALID_REQUEST⟩)).totalDelay = 0 :=
  get_fatal_status_fails_immediately _ (Or.inl rfl)

/-- If responses `r, …, k - 1` are `OK` with zero day length and response `k`
is `OK` with non-zero day length, the loop entered at `retries = r` succeeds
with record `k` after `k - r` further delays. -/
theorem getAux_bad_then_good (responses : Nat → SunriseResponse) (k : Nat) (hk : k < 5)
    (hbad : ∀ i, i < k → (responses i).status = ApiStatus.OK ∧
        (responses i).results.day_length = 0)
    (hgood : (responses k).status = ApiStatus.OK ∧ (responses k).results.day_length ≠ 0) :
    ∀ (n r : Nat), r + n = k →
      getAux responses r =
        { outcome := .success (responses k).results, attempts := n + 1, delays := n } := by
  intro n
  induction n with
  | zero =>
    intro r hr
    have hrk : r = k := by omega
    subst hrk
    rw [getAux, if_pos hgood]
  | succ n ih =>
    intro r hr
    have hb := hbad r (by omega)
    rw [getAux, if_neg (by rintro ⟨-, hne⟩; exact hne hb.2),
      dif_pos ⟨by omega, Or.inl hb.1⟩, ih (r + 1) (by omega)]

/-- C3: if the API answers `OK` with zero day length exactly `k` times
(`k < 5`) and then `OK` with a non-zero day length, `sunriseClient.get`
returns that response's record after exactly `k` retries, having slept
exactly `k` times for a total of `k * 10` time units; for `k = 0` it
returns on the first attempt with no delay. -/
theorem get_succeeds_after_k_retries (responses : Nat → SunriseResponse) (k : Nat)
    (hk : k < 5)
    (hbad : ∀ i, i < k → (responses i).status = ApiStatus.OK ∧
        (responses i).results.day_length = 0)
    (hgood : (responses k).status = ApiStatus.OK ∧ (responses k).results.day_length ≠ 0) :
    get responses =
      { outcome := .success (responses k).results, attempts := k + 1, delays := k } ∧
    (get responses).totalDelay = k * 10 := by
  have heq : get responses =
      { outcome := .success (responses k).results, attempts := k + 1, delays := k } := by
    rw [get]
    exact getAux_bad_then_good responses k hk hbad hgood k 0 (by omega)
  refine ⟨heq, ?_⟩
  rw [heq]
  show 10 * k = k * 10
  ring

/-- The fold of `findEarliestSunrise` computes an element of the list whose
`sunrise` is minimal, and every element strictly after the returned
occurrence has a strictly larger `sunrise`: on ties, the later occurrence
wins, because `a.sunrise < b.sunrise ? a : b` hands equal keys to `b`. -/
theorem foldl_earlierSunrise (a : SunriseResult) (l : List SunriseResult) :
    (∀ x ∈ a :: l, (l.foldl earlierSunrise a).sunrise ≤ x.sunrise) ∧
    ∃ l₁ l₂, a :: l = l₁ ++ (l.foldl earlierSunrise a) :: l₂ ∧
      ∀ x ∈ l₂, (l.foldl earlierSunrise a).sunrise < x.sunrise := by
  induction l using List.reverseRecOn with
  | nil =>
    refine ⟨?_, [], [], rfl, by simp⟩
    intro x hx
    rw [List.mem_singleton] at hx
    subst hx
    exact le_refl _
  | append_singleton l b ih =>
    rw [List.foldl_append, List.foldl_cons, List.foldl_nil]
    obtain ⟨hmin, l₁, l₂, hdec, hafter⟩ := ih
    rw [earlierSunrise]
    by_cases hlt : (l.foldl earlierSunrise a).sunrise < b.sunrise
    · rw [if_pos hlt]
      refine ⟨?_, l₁, l₂ ++ [b], ?_, ?_⟩
      · intro x hx
        rw [← List.cons_append, List.mem_append] at hx
        rcases hx with hx | hx
        · exact hmin x hx
        · rw [List.mem_singleton] at hx
          subst hx
          exact le_of_lt hlt
      · rw [← List.cons_append, hdec, List.append_assoc]
        rfl
      · intro x hx
        rw [List.mem_append] at hx
        rcases hx with hx | hx
        · exact hafter x hx
        · rw [List.mem_singleton] at hx
          subst hx
          exact hlt
    · rw [if_neg hlt]
      rw [not_lt] at hlt
      refine ⟨?_, a :: l, [], by rw [← List.cons_append], by simp⟩
      intro x hx
      rw [← List.cons_append, List.mem_append] at hx
      rcases hx with hx | hx
      · exact le_trans hlt (hmin x hx)
      · rw [List.mem_singleton] at hx
        subst hx
        exact le_refl _

/-- C4 (amended): on a non-empty input, `findEarliestSunrise` returns a
record whose `sunrise` is smallest under lexicographic string comparison;
when several records tie for the smallest `sunrise`, the LATEST-occurring
element of the input sequence is the one returned (every element after the
returned occurrence compares strictly larger). -/
theorem findEarliestSunrise_min_lastTie (l : List SunriseResult) (h : l ≠ []) :
    ∃ r, findEarliestSunrise l = some r ∧
      (∀ x ∈ l, r.sunrise ≤ x.sunrise) ∧
      ∃ l₁ l₂, l = l₁ ++ r :: l₂ ∧ ∀ x ∈ l₂, r.sunrise < x.sunrise := by
  match l with
  | [] => exact absurd rfl h
  | a :: rest =>
    obtain ⟨hmin, l₁, l₂, hdec, hafter⟩ := foldl_earlierSunrise a rest
    exact ⟨rest.foldl earlierSunrise a, rfl, hmin, l₁, l₂, hdec, hafter⟩

/-- C4 counterexample: on two records with exactly equal `sunrise` fields,
`findEarliestSunrise` returns the SECOND (later-occurring) record, not the
first as the claim's tie-break states. -/
theorem findEarliestSunrise_tie_returns_second :
    findEarliestSunrise [tieA, tieB] = some tieB ∧ tieB ≠ tieA := by
  constructor
  · show some (earlierSunrise tieA tieB) = some tieB
    rw [earlierSunrise, if_neg]
    intro hlt
    have hs : tieA.sunrise = tieB.sunrise := rfl
    rw [hs] at hlt
    exact lt_irrefl _ hlt
  · intro hEq
    have : tieB.sunset = tieA.sunset := by rw [hEq]
    simp [tieA, tieB] at this

/-- C4 witness: the spec's example — three records with distinct sunrises,
the middle one smallest — instantiating the amended theorem. -/
theorem findEarliestSunrise_min_lastTie_witness :
    ∃ r, findEarliestSunrise
        [{ zeroDayRecord with sunrise := "2024-01-01T06:00:00Z" },
         { zeroDayRecord with sunrise := "2024-01-01T05:30:00Z" },
         { zeroDayRecord with sunrise := "2024-01-01T07:00:00Z" }] = some r ∧
      (∀ x ∈ [{ zeroDayRecord with sunrise := "2024-01-01T06:00:00Z" },
              { zeroDayRecord with sunrise := "2024-01-01T05:30:00Z" },
              { zeroDayRecord with sunrise := "2024-01-01T07:00:00Z" }],
        r.sunrise ≤ x.sunrise) ∧
      ∃ l₁ l₂, [{ zeroDayRecord with sunrise := "2024-01-01T06:00:00Z" },
                { zeroDayRecord with sunrise := "2024-01-01T05:30:00Z" },
                { zeroDayRecord with sunrise := "2024-01-01T07:00:00Z" }] = l₁ ++ r :: l₂ ∧
        ∀ x ∈ l₂, r.sunrise < x.sunrise :=
  findEarliestSunrise_min_lastTie _ (by intro hEq; exact List.noConfusion hEq)

/-- C8: invoked on zero records, `findEarliestSunrise` fails (JavaScript
`reduce` of an empty array with no initial value throws; the spec names
this `EmptyInputError`), producing no record. -/
theorem findEarliestSunrise_empty_fails : findEarliestSunrise [] = none :=
  rfl

/-- C3 witness: two zero-day-length answers then a good one (`k = 2`). -/
theorem get_succeeds_after_k_retries_witness :
    get (fun i => if i < 2 then ⟨zeroDayRecord, ApiStatus.OK⟩ else ⟨goodRecord, ApiStatus.OK⟩) =
      { outcome := .success goodRecord, attempts := 3, delays := 2 } ∧
    (get (fun i => if i < 2 then ⟨zeroDayRecord, ApiStatus.OK⟩ else ⟨goodRecord, ApiStatus.OK⟩)).totalDelay = 20 :=
  get_succeeds_after_k_retries _ 2 (by decide)
    (by intro i hi; interval_cases i <;> exact ⟨rfl, rfl⟩) ⟨rfl, by decide⟩

/-- The min-by-settle-time fold behind `firstRejection` returns `p` whenever
`p` is the initial value or occurs in the list, and every candidate is
either `p` itself or settles strictly later. -/
theorem foldl_minTime (p : Nat × ApiError) :
    ∀ (l : List (Nat × ApiError)) (init : Nat × ApiError),
      (∀ q ∈ l, q = p ∨ p.1 < q.1) → (init = p ∨ p.1 < init.1) →
      (init = p ∨ p ∈ l) →
      l.foldl (fun a b => if b.1 < a.1 then b else a) init = p := by
  intro l
  induction l with
  | nil =>
    intro init hall hinit hmem
    rcases hmem with h | h
    · simpa using h
    · exact absurd h (List.not_mem_nil p)
  | cons b l ih =>
    intro init hall hinit hmem
    rw [List.foldl_cons]
    have hall' : ∀ q ∈ l, q = p ∨ p.1 < q.1 :=
      fun q hq => hall q (List.mem_cons_of_mem _ hq)
    rcases hall b (List.mem_cons_self b l) with hb | hb
    · rcases hinit with h | h
      · rw [h, hb, if_neg (lt_irrefl _)]
        exact ih p hall' (Or.inl rfl) (Or.inl rfl)
      · rw [if_pos (by rw [hb]; exact h), hb]
        exact ih p hall' (Or.inl rfl) (Or.inl rfl)
    · have hmem' : init = p ∨ p ∈ l := by
        rcases hmem with h | h
        · exact Or.inl h
        · rcases List.mem_cons.mp h with h | h
          · exact absurd hb (by rw [← h]; exact lt_irrefl _)
          · exact Or.inr h
      by_cases hlt : b.1 < init.1
      · rw [if_pos hlt]
        refine ih b hall' (Or.inr hb) ?_
        rcases hmem' with h | h
        · exfalso
          rw [h] at hlt
          exact lt_asymm hb hlt
        · exact Or.inr h
      · rw [if_neg hlt]
        exact ih init hall' hinit hmem'

/-- C5: if a constituent task rejects with error `e` and every other
rejecting task settles strictly later, the whole `Promise.all` batch rejects
with that same error `e` — whatever the other coordinates' outcomes — and
nothing is written to standard output. -/
theorem promiseAll_fails_with_first_error (tasks : List TaskOutcome)
    (t : TaskOutcome) (e : ApiError) (ht : t ∈ tasks) (he : t.result = .error e)
    (hfirst : ∀ u ∈ tasks, isRejected u.result = true → u = t ∨ t.time < u.time) :
    promiseAll tasks = .error e ∧ mainOutput tasks = none := by
  have hp : (t.time, e) ∈ rejections tasks := by
    rw [rejections, List.mem_filterMap]
    exact ⟨t, ht, by rw [he]⟩
  have hall : ∀ q ∈ rejections tasks, q = (t.time, e) ∨ t.time < q.1 := by
    intro q hq
    rw [rejections, List.mem_filterMap] at hq
    obtain ⟨u, hu, hqu⟩ := hq
    cases hur : u.result with
    | ok r =>
      rw [hur] at hqu
      exact absurd hqu (by simp)
    | error e' =>
      rw [hur] at hqu
      have hq' : q = (u.time, e') := (Option.some.inj hqu).symm
      rcases hfirst u hu (by rw [hur]; rfl) with h | h
      · subst h
        rw [he] at hur
        left
        rw [hq', Except.error.inj hur]
      · right
        rw [hq']
        exact h
  cases hrej : rejections tasks with
  | nil =>
    rw [hrej] at hp
    exact absurd hp (List.not_mem_nil _)
  | cons p rest =>
    rw [hrej] at hp hall
    have hfold : rest.foldl (fun a b => if b.1 < a.1 then b else a) p = (t.time, e) := by
      refine foldl_minTime (t.time, e) rest p
        (fun q hq => hall q (List.mem_cons_of_mem _ hq))
        (hall p (List.mem_cons_self _ _)) ?_
      rcases List.mem_cons.mp hp with h | h
      · exact Or.inl h.symm
      · exact Or.inr h
    have h0 : firstRejection tasks = some e := by
      rw [firstRejection, hrej]
      show some ((rest.foldl (fun a b => if b.1 < a.1 then b else a) p).2) = some e
      rw [hfold]
    have h1 : promiseAll tasks = .error e := by
      rw [promiseAll, h0]
    exact ⟨h1, by rw [mainOutput, h1]⟩

/-- C5 witness: three tasks; the middle one rejects (and settles first among
rejections), the other two fulfil. -/
theorem promiseAll_fails_with_first_error_witness :
    promiseAll [⟨5, .ok goodRecord⟩, ⟨3, .error ⟨ApiStatus.INVALID_REQUEST, 0⟩⟩,
        ⟨7, .ok goodRecord⟩] = .error ⟨ApiStatus.INVALID_REQUEST, 0⟩ ∧
    mainOutput [⟨5, .ok goodRecord⟩, ⟨3, .error ⟨ApiStatus.INVALID_REQUEST, 0⟩⟩,
        ⟨7, .ok goodRecord⟩] = none :=
  promiseAll_fails_with_first_error _
    ⟨3, .error ⟨ApiStatus.INVALID_REQUEST, 0⟩⟩ ⟨ApiStatus.INVALID_REQUEST, 0⟩
    (List.mem_cons_of_mem _ (List.mem_cons_self _ _)) rfl
    (by
      intro u hu h
      cases hu with
      | head => exact Bool.noConfusion h
      | tail _ hu =>
        cases hu with
        | head => exact Or.inl rfl
        | tail _ hu =>
          cases hu with
          | head => exact Bool.noConfusion h
          | tail _ hu => cases hu)

/-- All-fulfilled task lists produce no rejections. -/
theorem rejections_map_ok (coords : List LatLon) (time : LatLon → Nat)
    (f : LatLon → SunriseResult) :
    rejections (coords.map fun c => ⟨time c, Except.ok (f c)⟩) = [] := by
  induction coords with
  | nil => rfl
  | cons c cs ih => exact ih

/-- Extracting the fulfilled values of all-fulfilled tasks recovers the
per-coordinate records in input order. -/
theorem filterMap_toOption_map_ok (coords : List LatLon) (time : LatLon → Nat)
    (f : LatLon → SunriseResult) :
    (coords.map fun c => (⟨time c, Except.ok (f c)⟩ : TaskOutcome)).filterMap
      (fun t => t.result.toOption) = coords.map f := by
  induction coords with
  | nil => rfl
  | cons c cs ih => exact congrArg (List.cons (f c)) ih

/-- C6: when every coordinate's task fulfils, `Promise.all` resolves with
exactly one record per input coordinate, in input order, regardless of the
settle times (completion order) of the tasks. -/
theorem promiseAll_preserves_input_order (coords : List LatLon) (time : LatLon → Nat)
    (f : LatLon → SunriseResult) :
    promiseAll (coords.map fun c => ⟨time c, Except.ok (f c)⟩) = .ok (coords.map f) ∧
    (coords.map f).length = coords.length := by
  have h0 : firstRejection (coords.map fun c => ⟨time c, Except.ok (f c)⟩) = none := by
    rw [firstRejection, rejections_map_ok]
  constructor
  · rw [promiseAll, h0]
    show Except.ok (List.filterMap _ _) = _
    rw [filterMap_toOption_map_ok]
  · exact List.length_map _ _

/-- Setting a parameter then reading it back gives the new value. -/
theorem getParam_setParam_self (l : UrlParams) (k v : String) :
    getParam (setParam l k v) k = some v := by
  induction l with
  | nil => rw [setParam, getParam, if_pos rfl]
  | cons p rest ih =>
    obtain ⟨a, b⟩ := p
    rw [setParam]
    by_cases h : a = k
    · rw [if_pos h, getParam, if_pos rfl]
    · rw [if_neg h, getParam, if_neg h, ih]

/-- Removing pairs named `k'` does not change which pair named `k ≠ k'` is
read first. -/
theorem getParam_removeParam (l : UrlParams) (k k' : String) (h : k' ≠ k) :
    getParam (removeParam l k') k = getParam l k := by
  induction l with
  | nil => rfl
  | cons p rest ih =>
    obtain ⟨a, b⟩ := p
    rw [removeParam]
    by_cases ha : a = k'
    · rw [if_pos ha, ih, getParam, if_neg (by rw [ha]; exact h)]
    · rw [if_neg ha, getParam, getParam]
      by_cases hak : a = k
      · rw [if_pos hak, if_pos hak]
      · rw [if_neg hak, if_neg hak, ih]

/-- Setting one parameter leaves the value read for a different name
unchanged. -/
theorem getParam_setParam_other (l : UrlParams) (k k' v : String) (h : k' ≠ k) :
    getParam (setParam l k' v) k = getParam l k := by
  induction l with
  | nil => simp [setParam, getParam, h]
  | cons p rest ih =>
    obtain ⟨a, b⟩ := p
    rw [setParam]
    by_cases ha : a = k'
    · rw [if_pos ha, getParam, if_neg h, getParam_removeParam rest k k' h, getParam,
        if_neg (by rw [ha]; exact h)]
    · rw [if_neg ha, getParam, getParam]
      by_cases hak : a = k
      · rw [if_pos hak, if_pos hak]
      · rw [if_neg hak, if_neg hak, ih]

/-- After one `get` call, the shared URL's `lat` parameter holds the
7-digit serialization of the caller's latitude. -/
theorem getParam_getStep_lat (st : UrlParams) (loc : LatLon) :
    getParam (getStep st loc) "lat" = some (toFixed7 loc.lat) := by
  rw [getStep, getParam_setParam_other _ _ _ _ (by decide),
    getParam_setParam_other _ _ _ _ (by decide), getParam_setParam_self]

/-- After one `get` call, the shared URL's `lng` parameter holds the
7-digit serialization of the caller's longitude. -/
theorem getParam_getStep_lng (st : UrlParams) (loc : LatLon) :
    getParam (getStep st loc) "lng" = some (toFixed7 loc.lon) := by
  rw [getStep, getParam_setParam_other _ _ _ _ (by decide), getParam_setParam_self]

/-- After one `get` call, the shared URL's `formatted` parameter is `0`. -/
theorem getParam_getStep_formatted (st : UrlParams) (loc : LatLon) :
    getParam (getStep st loc) "formatted" = some "0" := by
  rw [getStep, getParam_setParam_self]

/-- Digit characters are never a decimal point. -/
theorem digitChar_ne_dot : ∀ d : Nat, d < 10 → Nat.digitChar d ≠ '.' := by decide

/-- Every character rendered by `fracDigits7` is a digit, never `.`. -/
theorem fracDigits7_no_dot (n : Nat) :
    ∀ c ∈ (fracDigits7 n).data, (c != '.') = true := by
  intro c hc
  have hc' : c ∈ (List.range 7).map fun i => Nat.digitChar (n / 10 ^ (6 - i) % 10) := hc
  rw [List.mem_map] at hc'
  obtain ⟨i, -, rfl⟩ := hc'
  have hlt : n / 10 ^ (6 - i) % 10 < 10 := Nat.mod_lt _ (by norm_num)
  simpa [bne_iff_ne] using digitChar_ne_dot _ hlt

/-- `fracDigits7` always renders exactly seven characters. -/
theorem fracDigits7_length (n : Nat) : (fracDigits7 n).data.length = 7 := by
  show ((List.range 7).map _).length = 7
  rw [List.length_map, List.length_range]

/-- `takeWhile` consumes exactly a satisfying prefix when the next character
fails the test. -/
theorem takeWhile_append_stop (p : Char → Bool) (c : Char) (hc : p c = false) :
    ∀ (l₁ l₂ : List Char), (∀ x ∈ l₁, p x = true) →
      (l₁ ++ c :: l₂).takeWhile p = l₁ := by
  intro l₁
  induction l₁ with
  | nil =>
    intro l₂ h
    rw [List.nil_append, List.takeWhile_cons, hc]
    rfl
  | cons a l ih =>
    intro l₂ h
    rw [List.cons_append, List.takeWhile_cons, h a (List.mem_cons_self _ _),
      ih l₂ fun x hx => h x (List.mem_cons_of_mem _ hx)]
    rfl

/-- Appending `"." ++ fracDigits7 n` to any string yields exactly seven
characters after the last decimal point. -/
theorem fracLen_append_frac (s : String) (n : Nat) :
    fracLen (s ++ "." ++ fracDigits7 n) = 7 := by
  rw [fracLen]
  have hdata : (s ++ "." ++ fracDigits7 n).data =
      (s.data ++ ['.']) ++ (fracDigits7 n).data := by
    rw [String.data_append, String.data_append]
  rw [hdata, List.reverse_append, List.reverse_append]
  have hshape : (fracDigits7 n).data.reverse ++ (['.'].reverse ++ s.data.reverse) =
      (fracDigits7 n).data.reverse ++ ('.' :: s.data.reverse) := rfl
  rw [hshape, takeWhile_append_stop _ '.' (by decide) _ _
    (fun x hx => fracDigits7_no_dot n x (List.mem_reverse.mp hx)),
    List.length_reverse, fracDigits7_length]

/-- Evaluation scheme for `toFixed7` on non-negative rationals. -/
theorem toFixed7_eval (q : ℚ) (n : ℕ) (hq : 0 ≤ q)
    (h : ⌊q * 10 ^ 7 + 1 / 2⌋ = (n : ℤ)) :
    toFixed7 q = Nat.repr (n / 10 ^ 7) ++ "." ++ fracDigits7 (n % 10 ^ 7) := by
  rw [toFixed7, if_neg (not_lt.mpr hq), abs_of_nonneg hq, h, Int.toNat_natCast]
  rfl

/-- Evaluation scheme for `toFixed7` on negative rationals. -/
theorem toFixed7_eval_neg (q : ℚ) (n : ℕ) (hq : q < 0)
    (h : ⌊-q * 10 ^ 7 + 1 / 2⌋ = (n : ℤ)) :
    toFixed7 q = "-" ++ (Nat.repr (n / 10 ^ 7) ++ "." ++ fracDigits7 (n % 10 ^ 7)) := by
  rw [toFixed7, if_pos hq, abs_of_neg hq, h, Int.toNat_natCast]

/-- C7: every `get` call sets the shared URL's query to
`lat = toFixed7 lat`, `lng = toFixed7 lon` and `formatted = 0`; `toFixed7`
always renders exactly seven digits after the decimal point; and for the
spec's example coordinate the serialized query string is exactly
`lat=45.1234567&lng=-93.7654321&formatted=0`. -/
theorem get_request_url_formatting (st : UrlParams) (location : LatLon) :
    getParam (getStep st location) "lat" = some (toFixed7 location.lat) ∧
    getParam (getStep st location) "lng" = some (toFixed7 location.lon) ∧
    getParam (getStep st location) "formatted" = some "0" ∧
    (∀ q : ℚ, fracLen (toFixed7 q) = 7) ∧
    serializeQuery (getStep baseUrlParams exampleLoc) =
      "lat=45.1234567&lng=-93.7654321&formatted=0" := by
  have hfrac : ∀ q : ℚ, fracLen (toFixed7 q) = 7 := by
    intro q
    rw [toFixed7, ← String.append_assoc, ← String.append_assoc]
    exact fracLen_append_frac _ _
  have hlat : toFixed7 (45.1234567 : ℚ) = "45.1234567" := by
    rw [toFixed7_eval _ 451234567 (by norm_num) (by rw [Int.floor_eq_iff]; norm_num)]
    rfl
  have hlng : toFixed7 (-93.7654321 : ℚ) = "-93.7654321" := by
    rw [toFixed7_eval_neg _ 937654321 (by norm_num) (by rw [Int.floor_eq_iff]; norm_num)]
    rfl
  have hstep : getStep baseUrlParams exampleLoc =
      [("lat", toFixed7 (45.1234567 : ℚ)), ("lng", toFixed7 (-93.7654321 : ℚ)),
        ("formatted", "0")] := rfl
  refine ⟨getParam_getStep_lat st location, getParam_getStep_lng st location,
    getParam_getStep_formatted st location, hfrac, ?_⟩
  rw [hstep, hlat, hlng]
  rfl

/-- C10: `sunriseClient.get` mutates the module-level `baseUrl` in place
(`let apiUrl = baseUrl` aliases, `searchParams.set` writes through): after
any non-empty sequence of calls, the shared URL's query carries the MOST
RECENT caller's coordinate, and a call never leaves the base URL unchanged
from its original query-less state. -/
theorem baseUrl_carries_last_coordinate (st : UrlParams) (locs : List LatLon)
    (h : locs ≠ []) :
    getParam (locs.foldl getStep st) "lat" = some (toFixed7 ((locs.getLast h).lat)) ∧
    getParam (locs.foldl getStep st) "lng" = some (toFixed7 ((locs.getLast h).lon)) ∧
    getParam (locs.foldl getStep st) "formatted" = some "0" ∧
    ∀ loc, getStep baseUrlParams loc ≠ baseUrlParams := by
  induction locs using List.reverseRecOn with
  | nil => exact absurd rfl h
  | append_singleton l b _ih =>
    rw [List.foldl_append, List.foldl_cons, List.foldl_nil, List.getLast_append _]
    exact ⟨getParam_getStep_lat _ _, getParam_getStep_lng _ _,
      getParam_getStep_formatted _ _, fun loc hEq => List.noConfusion hEq⟩

/-- C10 witness: two successive calls; the shared URL ends up carrying the
second caller's coordinate and differs from the pristine base URL. -/
theorem baseUrl_carries_last_coordinate_witness :
    getParam (([⟨1, 2⟩, ⟨3, 4⟩] : List LatLon).foldl getStep baseUrlParams) "lat" =
      some (toFixed7 (3 : ℚ)) ∧
    getParam (([⟨1, 2⟩, ⟨3, 4⟩] : List LatLon).foldl getStep baseUrlParams) "lng" =
      some (toFixed7 (4 : ℚ)) ∧
    getParam (([⟨1, 2⟩, ⟨3, 4⟩] : List LatLon).foldl getStep baseUrlParams) "formatted" =
      some "0" ∧
    ∀ loc, getStep baseUrlParams loc ≠ baseUrlParams :=
  baseUrl_carries_last_coordinate baseUrlParams [⟨1, 2⟩, ⟨3, 4⟩] (List.cons_ne_nil _ _)

end RandomSunrise
